import Mathlib

/-!
Verification of the product-recommendation core of a FastAPI service
(file FASTAPI_SERVER/main.py).  The service groups click events into
time-window transactions, mines association rules over them, answers
product-recommendation queries with a two-tier fallback, and computes
per-product analytics.

The Python code is embedded shallowly:

* Python floats (prices, supports, confidences) are modelled as exact
  rationals.  Core Rat arithmetic in Lean is irreducible for the kernel,
  so arithmetic is written directly with mkRat, which normalizes and
  computes; values are therefore canonical and decidable equality agrees
  with rational equality.
* Python dicts that preserve insertion order (defaultdict groups, the
  per-product statistics) are modelled as association lists updated in
  insertion order.
* pandas sort_values on several columns and Python sorted are stable
  sorts; both are modelled with List.insertionSort, which is stable.
* The mlxtend calls apriori and association_rules are library code that
  is not part of this repository; they are modelled from the spec: an
  itemset is frequent when the fraction of transactions containing all
  its items reaches the support threshold, and a rule is any nontrivial
  split of a frequent itemset with at least two items that reaches the
  confidence threshold, with lift equal to confidence divided by the
  support of the consequent.
-/

/-! ## Rational helpers

mkRat normalizes, so these operations compute in the kernel and return
canonical representatives. -/

/-- Addition of rationals via mkRat. -/
def qAdd (a b : ℚ) : ℚ := mkRat (a.num * b.den + b.num * a.den) (a.den * b.den)

/-- Multiplication of rationals via mkRat. -/
def qMul (a b : ℚ) : ℚ := mkRat (a.num * b.num) (a.den * b.den)

/-- Division of rationals via mkRat; division by zero yields 0 (the Python
code never divides by zero on the paths modelled here). -/
def qDiv (a b : ℚ) : ℚ :=
  if 0 ≤ b.num then mkRat (a.num * (b.den : Int)) (a.den * b.num.toNat)
  else mkRat (-(a.num * (b.den : Int))) (a.den * (-b.num).toNat)

/-- Python max of two numbers: returns the second argument only when it is
strictly greater. -/
def qMax (a b : ℚ) : ℚ := if a < b then b else a

/-- Python sum of a list of numbers (left fold starting at 0). -/
def qSum (l : List ℚ) : ℚ := l.foldl qAdd 0

/-- Python min over a nonempty list; 0 for the empty list (the code guards
emptiness before calling min). Ties keep the earlier element. -/
def listMin : List ℚ → ℚ
  | [] => 0
  | a :: as => as.foldl min a

/-- Python max over a nonempty list; 0 for the empty list. -/
def listMax : List ℚ → ℚ
  | [] => 0
  | a :: as => as.foldl max a

/-- Round to the nearest integer, halves to even, as Python round does on
exact values. -/
def roundHalfEven (q : ℚ) : Int :=
  let n := q.num.fdiv (q.den : Int)
  let r := q.num - n * (q.den : Int)
  if 2 * r < (q.den : Int) then n
  else if (q.den : Int) < 2 * r then n + 1
  else if n % 2 = 0 then n else n + 1

/-- Python round(q, digits) modelled exactly on rationals. -/
def pyRound (q : ℚ) (digits : Nat) : ℚ :=
  let p : Nat := 10 ^ digits
  mkRat (roundHalfEven (mkRat (q.num * (p : Int)) q.den)) p

/-! ## Generic list helpers -/

/-- Deduplication keeping first occurrences, with an accumulator of names
already seen; mirrors the seen-products loop of the Python code. -/
def dedupeSeen (seen : List String) : List String → List String
  | [] => []
  | p :: ps => if p ∈ seen then dedupeSeen seen ps else p :: dedupeSeen (p :: seen) ps

/-- Deduplication keeping first occurrences. -/
def dedupFirst (l : List String) : List String := dedupeSeen [] l

/-- Lookup in an insertion-ordered association list. -/
def alookup {β : Type} : List (String × β) → String → Option β
  | [], _ => none
  | (k, v) :: rest, p => if k = p then some v else alookup rest p

/-! ## Data model -/

/-- A decoded click event as read from the event store.  The Python code
reads dict fields with defaults, so every field is always present here;
the timestamp is the raw JSON list of numbers. -/
structure ClickEvent where
  product_name : String
  category : String
  price : ℚ
  timestamp : List Int
deriving DecidableEq, Repr

/-! ## Transaction builder (prepare_transaction_data, lines 155-250) -/

/-- Python format 02d: pad with a leading zero to width two. -/
def pad2 (n : Int) : String := if 0 ≤ n ∧ n < 10 then "0" ++ toString n else toString n

/-- Group id of an event: the timestamp truncated to the time window
(lines 173-179).  Events lacking a full 6-field timestamp fall into the
sentinel group "unknown".  Python floor division second // time_window is
Int.fdiv. -/
def groupId (time_window : Int) (e : ClickEvent) : String :=
  match e.timestamp with
  | year :: month :: day :: hour :: minute :: second :: _ =>
    let time_group := (second.fdiv time_window) * time_window
    toString year ++ "-" ++ pad2 month ++ "-" ++ pad2 day ++ "_" ++
      pad2 hour ++ "-" ++ pad2 minute ++ "-" ++ pad2 time_group
  | _ => "unknown"

/-- Append an event to its group in an insertion-ordered association list;
models time_based_groups[group_id].append(...) on a defaultdict. -/
def addEvent (gs : List (String × List ClickEvent)) (k : String) (e : ClickEvent) :
    List (String × List ClickEvent) :=
  match gs with
  | [] => [(k, [e])]
  | (k2, es) :: rest =>
    if k2 = k then (k2, es ++ [e]) :: rest else (k2, es) :: addEvent rest k e

/-- Bucket all events into time groups (lines 165-187). -/
def groupEvents (time_window : Int) (events : List ClickEvent) :
    List (String × List ClickEvent) :=
  events.foldl (fun gs e => addEvent gs (groupId time_window e) e) []

/-- One product entry of the per-group metadata (lines 205-213). -/
structure GroupProduct where
  product_name : String
  category : String
  price : ℚ
deriving DecidableEq, Repr

/-- Per-group metadata (lines 204-217). -/
structure GroupInfo where
  products : List GroupProduct
  total_events : Nat
  unique_products : Nat
  time_window : Int
deriving DecidableEq, Repr

/-- Category recorded for a deduplicated product: the category of the first
event of the group with that product name (the next(...) generator at
line 209). -/
def firstCategory (ges : List ClickEvent) (p : String) : String :=
  match ges.find? (fun e => decide (e.product_name = p)) with
  | some e => e.category
  | none => "unknown"

/-- Price recorded for a deduplicated product (line 210). -/
def firstPrice (ges : List ClickEvent) (p : String) : ℚ :=
  match ges.find? (fun e => decide (e.product_name = p)) with
  | some e => e.price
  | none => 0

/-- Metadata of one group (lines 204-217). -/
def mkGroupInfo (time_window : Int) (ges : List ClickEvent) : GroupInfo :=
  let unique_products := dedupFirst (ges.map (·.product_name))
  { products := unique_products.map (fun p =>
      { product_name := p, category := firstCategory ges p, price := firstPrice ges p }),
    total_events := ges.length,
    unique_products := unique_products.length,
    time_window := time_window }

/-- The one-hot transaction matrix (the oht DataFrame, lines 224-242):
row labels, column labels, and for each row the deduplicated product list
of its group.  A cell holds True exactly when the column product is in the
row group (missing cells are filled with False at line 239). -/
structure TransMatrix where
  transaction_ids : List String
  cols : List String
  rows : List (List String)
deriving DecidableEq, Repr

/-- The boolean cells of the matrix: one-hot rows over the columns. -/
def TransMatrix.data (m : TransMatrix) : List (List Bool) :=
  m.rows.map (fun r => m.cols.map (fun c => decide (c ∈ r)))

/-- The deduplicated product list of every group, in group discovery order
(lines 189-202). -/
def builderGroups (time_window : Int) (events : List ClickEvent) : List (List String) :=
  (groupEvents time_window events).map (fun g => dedupFirst ((g.2).map (·.product_name)))

/-- The enumerated nonempty groups (lines 228-231): pairs of the position
in the groups list and the product list, keeping only nonempty ones. -/
def builderNonempty (time_window : Int) (events : List ClickEvent) :
    List (Nat × List String) :=
  (builderGroups time_window events).enum.filter (fun ig => decide (0 < ig.2.length))

/-- The rows of the one-hot matrix: the nonempty groups in order. -/
def builderRows (time_window : Int) (events : List ClickEvent) : List (List String) :=
  (builderNonempty time_window events).map (·.2)

/-- The columns of the one-hot matrix: the union of product names across
the retained groups, in first-appearance order (pd.concat adds each new
column when a row first mentions it). -/
def builderCols (time_window : Int) (events : List ClickEvent) : List String :=
  dedupFirst (builderRows time_window events).flatten

/-- prepare_transaction_data (lines 155-250).  Empty event list returns the
empty matrix (lines 160-162).  A zero time window makes the group-id
computation raise ZeroDivisionError as soon as an event has a full
timestamp; the enclosing handler (lines 248-250) then returns the empty
matrix, modelled by the second guard. -/
def prepare_transaction_data (events : List ClickEvent) (time_window : Int) :
    TransMatrix × List (String × GroupInfo) :=
  if events = [] ∨ (time_window = 0 ∧ events.any (fun e => 6 ≤ e.timestamp.length)) then
    (⟨[], [], []⟩, [])
  else
    (⟨(builderNonempty time_window events).map (fun ig => "group_" ++ toString (ig.1 + 1)),
      builderCols time_window events,
      builderRows time_window events⟩,
     (groupEvents time_window events).map (fun g => (g.1, mkGroupInfo time_window g.2)))

/-! ## Rule miner (generate_association_rules, lines 252-318)

The two mlxtend calls are modelled from the spec (they are external
library code, not code of this repository): support of an itemset is the
fraction of transactions containing all its items; apriori keeps every
nonempty itemset whose support reaches the threshold; association rules
are all nontrivial antecedent/consequent splits of frequent itemsets with
at least two items whose confidence reaches the threshold, with
lift = confidence / support(consequents). -/

/-- A row of the frequent-itemsets table. -/
structure FreqItemset where
  support : ℚ
  itemsets : List String
deriving DecidableEq, Repr

/-- A row of the rules table. -/
structure Rule where
  antecedents : List String
  consequents : List String
  support : ℚ
  confidence : ℚ
  lift : ℚ
deriving DecidableEq, Repr

/-- A value of the summary dict (line 292-300): a count, a threshold, or a
product list. -/
inductive SVal where
  | nat : Nat → SVal
  | rat : ℚ → SVal
  | strs : List String → SVal
deriving DecidableEq, Repr

/-- The dict returned by generate_association_rules.  A missing "error"
key is error = none; dict-shaped summary is an association list so that
which keys are reported can be stated. -/
structure MiningResult where
  error : Option String
  frequent_itemsets : List FreqItemset
  rules : List Rule
  summary : List (String × SVal)
  group_info : List (String × GroupInfo)
deriving DecidableEq, Repr

/-- Modelled from the spec: support of an itemset, the fraction of
transactions containing all its items. -/
def itemsetSupport (rows : List (List String)) (items : List String) : ℚ :=
  mkRat ((rows.filter (fun r => items.all (fun i => decide (i ∈ r)))).length) rows.length

/-- Modelled from the spec: the mlxtend apriori call (line 276) returns
every nonempty itemset over the matrix columns whose support reaches
min_support (downward-closure pruning does not change the result set). -/
def apriori (m : TransMatrix) (min_support : ℚ) : List FreqItemset :=
  ((m.cols.sublists.filter (fun s => decide (s ≠ []))).filter
      (fun s => decide (min_support ≤ itemsetSupport m.rows s))).map
    (fun s => { support := itemsetSupport m.rows s, itemsets := s })

/-- Modelled from the spec: all antecedent/consequent splits of one
frequent itemset with at least two items. -/
def ruleCandidates (rows : List (List String)) (fi : FreqItemset) : List Rule :=
  if fi.itemsets.length < 2 then []
  else
    (fi.itemsets.sublists.filter
        (fun a => decide (a ≠ [] ∧ a.length < fi.itemsets.length))).map
      (fun a =>
        let c := fi.itemsets.filter (fun x => decide (x ∉ a))
        let confidence := qDiv fi.support (itemsetSupport rows a)
        { antecedents := a, consequents := c, support := fi.support,
          confidence := confidence,
          lift := qDiv confidence (itemsetSupport rows c) })

/-- Modelled from the spec: the mlxtend association_rules call (line 287)
keeps the splits whose confidence reaches min_confidence. -/
def association_rules (rows : List (List String)) (freq : List FreqItemset)
    (min_confidence : ℚ) : List Rule :=
  (freq.flatMap (ruleCandidates rows)).filter
    (fun r => decide (min_confidence ≤ r.confidence))

/-- Rule ordering of line 290: confidence descending, ties by lift
descending.  sort_values on two columns is a stable lexicographic sort. -/
def ruleOrder (a b : Rule) : Prop :=
  b.confidence < a.confidence ∨ (a.confidence = b.confidence ∧ b.lift ≤ a.lift)

instance : DecidableRel ruleOrder := fun a b => by unfold ruleOrder; exact inferInstance

/-- Adjusted support threshold (lines 266-273): with fewer than 5
transactions, halve it, floored at 0.05. -/
def adjustedSupport (n : Nat) (min_support : ℚ) : ℚ :=
  if n < 5 then qMax (mkRat 1 20) (qMul min_support (mkRat 1 2)) else min_support

/-- Adjusted confidence threshold (lines 266-273): with fewer than 5
transactions, halve it, floored at 0.1. -/
def adjustedConfidence (n : Nat) (min_confidence : ℚ) : ℚ :=
  if n < 5 then qMax (mkRat 1 10) (qMul min_confidence (mkRat 1 2)) else min_confidence

/-- Result of lines 257-263: no transaction data.  The summary is the
empty dict. -/
def noTransactionsResult : MiningResult :=
  { error := some "거래 데이터가 없습니다", frequent_itemsets := [], rules := [],
    summary := [], group_info := [] }

/-- Result of the except handler at lines 311-318 for the ValueError that
mlxtend apriori raises on a nonpositive support threshold.  The summary is
the empty dict. -/
def valueErrorResult : MiningResult :=
  { error := some "연관규칙 생성 중 오류", frequent_itemsets := [], rules := [],
    summary := [], group_info := [] }

/-- Result of lines 278-284: no frequent itemsets.  The summary reports
only the transaction and product counts. -/
def noFrequentResult (oht : TransMatrix) : MiningResult :=
  { error := some "빈발 항목 집합이 없습니다", frequent_itemsets := [], rules := [],
    summary := [("total_transactions", SVal.nat oht.rows.length),
                ("total_products", SVal.nat oht.cols.length)],
    group_info := [] }

/-- Transaction frequency of each column: how many transactions contain
the product (the column sum of the boolean matrix, line 299). -/
def columnCounts (oht : TransMatrix) : List (String × Nat) :=
  oht.cols.map (fun c => (c, (oht.rows.filter (fun r => decide (c ∈ r))).length))

/-- The five most clicked products by transaction frequency (line 299).
pandas sort_values on one column is not stable; ties here are modelled in
stable column order, which no claim depends on. -/
def topProducts (oht : TransMatrix) : List String :=
  (((columnCounts oht).insertionSort (fun a b => b.2 ≤ a.2)).take 5).map (·.1)

/-- The success result of lines 286-309. -/
def minedResult (oht : TransMatrix) (group_info : List (String × GroupInfo))
    (S C : ℚ) : MiningResult :=
  let frequent_itemsets := apriori oht S
  let rules := (association_rules oht.rows frequent_itemsets C).insertionSort ruleOrder
  { error := none,
    frequent_itemsets := frequent_itemsets,
    rules := rules,
    summary := [("total_transactions", SVal.nat oht.rows.length),
                ("total_products", SVal.nat oht.cols.length),
                ("frequent_itemsets_count", SVal.nat frequent_itemsets.length),
                ("rules_count", SVal.nat rules.length),
                ("min_support", SVal.rat S),
                ("min_confidence", SVal.rat C),
                ("top_products", SVal.strs (topProducts oht))],
    group_info := group_info }

/-- generate_association_rules (lines 252-318), written with the branch
conditions spelled out on the prepared matrix. -/
def generate_association_rules (events : List ClickEvent)
    (min_support min_confidence : ℚ) (time_window : Int) : MiningResult :=
  if (prepare_transaction_data events time_window).1.rows = [] then
    noTransactionsResult
  else if adjustedSupport (prepare_transaction_data events time_window).1.rows.length
      min_support ≤ 0 then
    valueErrorResult
  else if apriori (prepare_transaction_data events time_window).1
      (adjustedSupport (prepare_transaction_data events time_window).1.rows.length
        min_support) = [] then
    noFrequentResult (prepare_transaction_data events time_window).1
  else
    minedResult (prepare_transaction_data events time_window).1
      (prepare_transaction_data events time_window).2
      (adjustedSupport (prepare_transaction_data events time_window).1.rows.length
        min_support)
      (adjustedConfidence (prepare_transaction_data events time_window).1.rows.length
        min_confidence)

/-! ## Recommender (recommend_products, lines 320-405) -/

/-- One recommendation dict (lines 351-357). Numeric fields are rounded to
3 digits as in the Python code. -/
structure Recommendation where
  product : String
  confidence : ℚ
  lift : ℚ
  support : ℚ
  rule : String
deriving DecidableEq, Repr

/-- A tier-1 recommendation (lines 350-357): label "product → consequent". -/
def mkRec1 (product_name : String) (r : Rule) (consequent : String) : Recommendation :=
  { product := consequent, confidence := pyRound r.confidence 3,
    lift := pyRound r.lift 3, support := pyRound r.support 3,
    rule := product_name ++ " → " ++ consequent }

/-- Tier 1 (lines 344-357): for each rule whose antecedents contain the
product and whose consequents do not, one recommendation per consequent. -/
def tier1 (product_name : String) (rules : List Rule) : List Recommendation :=
  rules.flatMap (fun r =>
    if product_name ∈ r.antecedents ∧ product_name ∉ r.consequents then
      r.consequents.map (mkRec1 product_name r)
    else [])

/-- A tier-2 recommendation (lines 369-377): label joins the antecedents. -/
def mkRec2 (r : Rule) (consequent : String) : Recommendation :=
  { product := consequent, confidence := pyRound r.confidence 3,
    lift := pyRound r.lift 3, support := pyRound r.support 3,
    rule := String.intercalate ", " r.antecedents ++ " → " ++ consequent }

/-- Inner loop of tier 2 (lines 369-380): walk the consequents of one rule,
append those different from the product, and stop as soon as the
accumulated list reaches max_recommendations. -/
def tier2Inner (product_name : String) (maxR : Nat) (r : Rule) :
    List String → List Recommendation → List Recommendation
  | [], acc => acc
  | c :: cs, acc =>
    if c ≠ product_name then
      let acc2 := acc ++ [mkRec2 r c]
      if maxR ≤ acc2.length then acc2 else tier2Inner product_name maxR r cs acc2
    else tier2Inner product_name maxR r cs acc

/-- Outer loop of tier 2 (lines 364-383): walk all rules in their given
order, breaking once max_recommendations is reached. -/
def tier2 (product_name : String) (maxR : Nat) :
    List Rule → List Recommendation → List Recommendation
  | [], acc => acc
  | r :: rs, acc =>
    let acc2 := tier2Inner product_name maxR r r.consequents acc
    if maxR ≤ acc2.length then acc2 else tier2 product_name maxR rs acc2

/-- The recommendations collected before the final sort (lines 342-383):
tier 1, replaced by tier 2 when tier 1 found nothing and rules exist. -/
def collectedRecs (product_name : String) (rules : List Rule)
    (max_recommendations : Nat) : List Recommendation :=
  if (tier1 product_name rules).length = 0 ∧ 0 < rules.length then
    tier2 product_name max_recommendations rules []
  else tier1 product_name rules

/-- The recommendation core of lines 342-386 as a function of the queried
product, the mined rule list and max_recommendations: tier 1, tier 2 when
tier 1 found nothing and rules exist, then a stable sort by confidence
descending (line 386) and truncation to max_recommendations. -/
def recommendFromRules (product_name : String) (rules : List Rule)
    (max_recommendations : Nat) : List Recommendation :=
  (((collectedRecs product_name rules max_recommendations).insertionSort
      (fun a b => b.confidence ≤ a.confidence)).take max_recommendations)

/-- The dict returned by recommend_products.  The failure dicts carry no
counts; the message string of line 336 interpolates the product name,
modelled here without the interpolation since no claim depends on it. -/
structure RecommendResult where
  error : Option String
  message : Option String
  product_name : String
  recommendations : List Recommendation
  total_recommendations : Nat
deriving DecidableEq, Repr

/-- recommend_products (lines 320-405).  It mines with the default
min_support of 0.1 and the given min_confidence. -/
def recommend_products (events : List ClickEvent) (product_name : String)
    (min_confidence : ℚ) (max_recommendations : Nat) (time_window : Int) :
    RecommendResult :=
  let rules_result := generate_association_rules events (mkRat 1 10) min_confidence time_window
  match rules_result.error with
  | some e =>
    { error := some e, message := none, product_name := product_name,
      recommendations := [], total_recommendations := 0 }
  | none =>
    if rules_result.rules = [] then
      { error := none, message := some "상품에 대한 추천 규칙이 없습니다",
        product_name := product_name, recommendations := [], total_recommendations := 0 }
    else
      let recs := recommendFromRules product_name rules_result.rules max_recommendations
      { error := none, message := none, product_name := product_name,
        recommendations := recs, total_recommendations := recs.length }

/-! ## Groups endpoint (get_groups_info, lines 513-568) -/

/-- One entry of the groups list (lines 534-540).  The categories are a
Python set; its iteration order is unspecified, modelled in first-seen
order. -/
structure GroupEntry where
  group_id : String
  product_count : Nat
  products : List String
  categories : List String
deriving DecidableEq, Repr

/-- The dict returned by the groups/info endpoint. -/
structure GroupsInfoResult where
  error : Option String
  total_groups : Nat
  groups : List GroupEntry
  total_transactions : Nat
  total_products : Nat
deriving DecidableEq, Repr

/-- get_groups_info (lines 513-568). -/
def get_groups_info (events : List ClickEvent) (time_window : Int) :
    GroupsInfoResult :=
  let pr := prepare_transaction_data events time_window
  if pr.1.rows = [] then
    { error := some "그룹 데이터가 없습니다", total_groups := 0, groups := [],
      total_transactions := 0, total_products := 0 }
  else
    let groups_info := pr.2.map (fun gi =>
      let product_names := gi.2.products.map (·.product_name)
      { group_id := gi.1, product_count := product_names.length,
        products := product_names,
        categories := dedupFirst
          ((gi.2.products.map (·.category)).filter (fun c => decide (c ≠ ""))) })
    { error := none, total_groups := groups_info.length, groups := groups_info,
      total_transactions := pr.1.rows.length, total_products := pr.1.cols.length }

/-! ## Analytics aggregator (get_product_analytics, lines 416-494) -/

/-- Per-product running statistics (the defaultdict at line 435).  The
categories set is modelled as an insertion-ordered set. -/
structure PStats where
  clicks : Nat
  categories : List String
  prices : List ℚ
deriving DecidableEq, Repr

/-- One step of the statistics loop (lines 439-452): bump the click count,
add the category to the set, append the price.  Every price is appended,
including zero prices. -/
def statsUpd (m : List (String × PStats)) (e : ClickEvent) : List (String × PStats) :=
  match m with
  | [] => [(e.product_name, { clicks := 1, categories := [e.category], prices := [e.price] })]
  | (p, s) :: rest =>
    if p = e.product_name then
      (p, { clicks := s.clicks + 1,
            categories := if e.category ∈ s.categories then s.categories
                          else s.categories ++ [e.category],
            prices := s.prices ++ [e.price] }) :: rest
    else (p, s) :: statsUpd rest e

/-- The per-product statistics dict after the loop of lines 439-452. -/
def buildStats (events : List ClickEvent) : List (String × PStats) :=
  events.foldl statsUpd []

/-- One step of the category histogram (line 449). -/
def catUpd (m : List (String × Nat)) (c : String) : List (String × Nat) :=
  match m with
  | [] => [(c, 1)]
  | (k, n) :: rest =>
    if k = c then (k, n + 1) :: rest else (k, n) :: catUpd rest c

/-- The category histogram after the loop. -/
def buildCats (events : List ClickEvent) : List (String × Nat) :=
  events.foldl (fun m e => catUpd m e.category) []

/-- One entry of the top_products list (lines 456-467).  The p-prefixed
names model the dict keys min and max of the price_range. -/
structure ProductEntry where
  product_name : String
  clicks : Nat
  categories : List String
  average_price : ℚ
  price_min : ℚ
  price_max : ℚ
deriving DecidableEq, Repr

/-- Global price statistics (lines 473-480); absent when no positive price
was seen. -/
structure PriceStats where
  average : ℚ
  pmin : ℚ
  pmax : ℚ
  count : Nat
deriving DecidableEq, Repr

/-- The dict returned by the analytics endpoint. -/
structure AnalyticsResult where
  message : Option String
  total_products : Nat
  total_clicks : Nat
  top_products : List ProductEntry
  category_distribution : List (String × Nat)
  price_statistics : Option PriceStats
deriving DecidableEq, Repr

/-- Build one product entry (lines 456-467): the average and the range are
taken over all recorded prices of the product, zero prices included. -/
def mkProductEntry (p : String) (s : PStats) : ProductEntry :=
  let avg := if s.prices = [] then 0
    else qDiv (qSum s.prices) (mkRat (s.prices.length : Int) 1)
  { product_name := p, clicks := s.clicks, categories := s.categories,
    average_price := pyRound avg 2,
    price_min := if s.prices = [] then 0 else listMin s.prices,
    price_max := if s.prices = [] then 0 else listMax s.prices }

/-- The global price list all_prices (lines 437, 451): only positive
prices are collected, in event order. -/
def allPrices (events : List ClickEvent) : List ℚ :=
  (events.filter (fun e => decide (0 < e.price))).map (·.price)

/-- The top_products list (lines 455-470): one entry per product in the
statistics dict, sorted stably by click count descending, first ten kept
(line 487). -/
def topProductEntries (events : List ClickEvent) : List ProductEntry :=
  (((buildStats events).map (fun ps => mkProductEntry ps.1 ps.2)).insertionSort
      (fun a b => b.clicks ≤ a.clicks)).take 10

/-- The global price statistics (lines 473-480). -/
def priceStatistics (events : List ClickEvent) : Option PriceStats :=
  if allPrices events = ([] : List ℚ) then none else
    some { average := pyRound (qDiv (qSum (allPrices events))
                        (mkRat ((allPrices events).length : Int) 1)) 2,
           pmin := listMin (allPrices events), pmax := listMax (allPrices events),
           count := (allPrices events).length }

/-- get_product_analytics (lines 416-494).  Only the global price list
all_prices filters out nonpositive prices (line 451). -/
def get_product_analytics (events : List ClickEvent) : AnalyticsResult :=
  if events = [] then
    { message := some "분석할 클릭 이벤트가 없습니다", total_products := 0,
      total_clicks := 0, top_products := [], category_distribution := [],
      price_statistics := none }
  else
    { message := none, total_products := (buildStats events).length,
      total_clicks := events.length, top_products := topProductEntries events,
      category_distribution := buildCats events,
      price_statistics := priceStatistics events }

/-! ## Helper lemmas -/

theorem mem_dedupeSeen (a : String) (l : List String) :
    ∀ seen, a ∈ dedupeSeen seen l ↔ a ∈ l ∧ a ∉ seen := by
  induction l with
  | nil => intro seen; simp [dedupeSeen]
  | cons p ps ih =>
    intro seen
    by_cases hp : p ∈ seen
    · rw [dedupeSeen, if_pos hp, ih seen]
      constructor
      · rintro ⟨h1, h2⟩
        exact ⟨List.mem_cons_of_mem _ h1, h2⟩
      · rintro ⟨h1, h2⟩
        refine ⟨?_, h2⟩
        rcases List.mem_cons.mp h1 with rfl | h1
        · exact absurd hp h2
        · exact h1
    · rw [dedupeSeen, if_neg hp]
      constructor
      · intro h
        rcases List.mem_cons.mp h with rfl | h
        · exact ⟨List.mem_cons_self _ _, hp⟩
        · rw [ih (p :: seen)] at h
          exact ⟨List.mem_cons_of_mem _ h.1, fun hs => h.2 (List.mem_cons_of_mem _ hs)⟩
      · rintro ⟨h1, h2⟩
        rcases List.mem_cons.mp h1 with rfl | h1
        · exact List.mem_cons_self _ _
        · by_cases hap : a = p
          · subst hap; exact List.mem_cons_self _ _
          · refine List.mem_cons_of_mem _ ?_
            rw [ih (p :: seen)]
            refine ⟨h1, fun hs => ?_⟩
            rcases List.mem_cons.mp hs with h | h
            · exact hap h
            · exact h2 h

theorem nodup_dedupeSeen (l : List String) : ∀ seen, (dedupeSeen seen l).Nodup := by
  induction l with
  | nil => intro seen; simp [dedupeSeen]
  | cons p ps ih =>
    intro seen
    by_cases hp : p ∈ seen
    · rw [dedupeSeen, if_pos hp]; exact ih seen
    · rw [dedupeSeen, if_neg hp]
      refine List.nodup_cons.mpr ⟨fun hmem => ?_, ih (p :: seen)⟩
      rw [mem_dedupeSeen] at hmem
      exact hmem.2 (List.mem_cons_self _ _)

theorem mem_dedupFirst (a : String) (l : List String) : a ∈ dedupFirst l ↔ a ∈ l := by
  rw [dedupFirst, mem_dedupeSeen]
  simp

theorem nodup_dedupFirst (l : List String) : (dedupFirst l).Nodup :=
  nodup_dedupeSeen l []

instance : IsTrans Rule ruleOrder := ⟨by
  intro a b c hab hbc
  rcases hab with h1 | ⟨h1, h2⟩
  · rcases hbc with h3 | ⟨h3, h4⟩
    · exact Or.inl (h3.trans h1)
    · exact Or.inl (h3 ▸ h1)
  · rcases hbc with h3 | ⟨h3, h4⟩
    · exact Or.inl (lt_of_lt_of_le h3 (le_of_eq h1.symm))
    · exact Or.inr ⟨h1.trans h3, le_trans h4 h2⟩⟩

instance : IsTotal Rule ruleOrder := ⟨by
  intro a b
  rcases lt_trichotomy a.confidence b.confidence with h | h | h
  · exact Or.inr (Or.inl h)
  · rcases le_total b.lift a.lift with hl | hl
    · exact Or.inl (Or.inr ⟨h, hl⟩)
    · exact Or.inr (Or.inr ⟨h.symm, hl⟩)
  · exact Or.inl (Or.inl h)⟩

theorem apriori_support_ge (m : TransMatrix) (S : ℚ) (fi : FreqItemset)
    (h : fi ∈ apriori m S) : S ≤ fi.support := by
  unfold apriori at h
  rw [List.mem_map] at h
  obtain ⟨s, hs, rfl⟩ := h
  have := List.of_mem_filter hs
  simpa using this

theorem association_rules_conf_ge (rows : List (List String))
    (freq : List FreqItemset) (C : ℚ) (r : Rule)
    (h : r ∈ association_rules rows freq C) : C ≤ r.confidence := by
  unfold association_rules at h
  have := List.of_mem_filter h
  simpa using this

theorem minedResult_rules_sorted (oht : TransMatrix)
    (gi : List (String × GroupInfo)) (S C : ℚ) :
    List.Pairwise ruleOrder (minedResult oht gi S C).rules :=
  List.sorted_insertionSort ruleOrder _

theorem generate_error_none_eq (events : List ClickEvent) (ms mc : ℚ) (tw : Int)
    (h : (generate_association_rules events ms mc tw).error = none) :
    generate_association_rules events ms mc tw =
      minedResult (prepare_transaction_data events tw).1
        (prepare_transaction_data events tw).2
        (adjustedSupport (prepare_transaction_data events tw).1.rows.length ms)
        (adjustedConfidence (prepare_transaction_data events tw).1.rows.length mc) := by
  unfold generate_association_rules at h ⊢
  split_ifs at h ⊢
  · simp [noTransactionsResult] at h
  · simp [valueErrorResult] at h
  · simp [noFrequentResult] at h
  · rfl

theorem mem_tier1 (p : String) (rules : List Rule) (rec : Recommendation)
    (h : rec ∈ tier1 p rules) : rec.product ≠ p := by
  unfold tier1 at h
  rw [List.mem_flatMap] at h
  obtain ⟨r, hr, hmem⟩ := h
  by_cases hc : p ∈ r.antecedents ∧ p ∉ r.consequents
  · rw [if_pos hc] at hmem
    rw [List.mem_map] at hmem
    obtain ⟨c, hcm, rfl⟩ := hmem
    intro heq
    exact hc.2 (heq ▸ hcm)
  · rw [if_neg hc] at hmem
    cases hmem

theorem mem_tier2Inner (p : String) (maxR : Nat) (r : Rule) :
    ∀ (cs : List String) (acc : List Recommendation) (rec : Recommendation),
      rec ∈ tier2Inner p maxR r cs acc → rec ∈ acc ∨ rec.product ≠ p := by
  intro cs
  induction cs with
  | nil =>
    intro acc rec h
    rw [tier2Inner] at h
    exact Or.inl h
  | cons c cs ih =>
    intro acc rec h
    rw [tier2Inner] at h
    by_cases hc : c ≠ p
    · rw [if_pos hc] at h
      by_cases hlen : maxR ≤ (acc ++ [mkRec2 r c]).length
      · rw [if_pos hlen] at h
        rcases List.mem_append.mp h with h | h
        · exact Or.inl h
        · rw [List.mem_singleton] at h
          subst h
          exact Or.inr hc
      · rw [if_neg hlen] at h
        rcases ih _ rec h with h | h
        · rcases List.mem_append.mp h with h | h
          · exact Or.inl h
          · rw [List.mem_singleton] at h
            subst h
            exact Or.inr hc
        · exact Or.inr h
    · rw [if_neg hc] at h
      exact ih acc rec h

theorem mem_tier2 (p : String) (maxR : Nat) :
    ∀ (rules : List Rule) (acc : List Recommendation) (rec : Recommendation),
      rec ∈ tier2 p maxR rules acc → rec ∈ acc ∨ rec.product ≠ p := by
  intro rules
  induction rules with
  | nil =>
    intro acc rec h
    rw [tier2] at h
    exact Or.inl h
  | cons r rs ih =>
    intro acc rec h
    rw [tier2] at h
    by_cases hlen : maxR ≤ (tier2Inner p maxR r r.consequents acc).length
    · rw [if_pos hlen] at h
      exact mem_tier2Inner p maxR r _ acc rec h
    · rw [if_neg hlen] at h
      rcases ih _ rec h with h | h
      · exact mem_tier2Inner p maxR r _ acc rec h
      · exact Or.inr h

theorem recommendFromRules_not_self (p : String) (rules : List Rule) (maxR : Nat)
    (rec : Recommendation) (h : rec ∈ recommendFromRules p rules maxR) :
    rec.product ≠ p := by
  unfold recommendFromRules at h
  have h2 := List.mem_of_mem_take h
  rw [List.mem_insertionSort] at h2
  unfold collectedRecs at h2
  by_cases hcond : (tier1 p rules).length = 0 ∧ 0 < rules.length
  · rw [if_pos hcond] at h2
    rcases mem_tier2 p maxR rules [] rec h2 with h3 | h3
    · cases h3
    · exact h3
  · rw [if_neg hcond] at h2
    exact mem_tier1 p rules rec h2

theorem tier2Inner_length_le (p : String) (maxR : Nat) (r : Rule) :
    ∀ (cs : List String) (acc : List Recommendation),
      acc.length ≤ (tier2Inner p maxR r cs acc).length := by
  intro cs
  induction cs with
  | nil => intro acc; rw [tier2Inner]
  | cons c cs ih =>
    intro acc
    rw [tier2Inner]
    by_cases hc : c ≠ p
    · rw [if_pos hc]
      by_cases hlen : maxR ≤ (acc ++ [mkRec2 r c]).length
      · rw [if_pos hlen]
        simp
      · rw [if_neg hlen]
        calc acc.length ≤ (acc ++ [mkRec2 r c]).length := by simp
          _ ≤ _ := ih _
    · rw [if_neg hc]
      exact ih acc

theorem tier2_length_le (p : String) (maxR : Nat) :
    ∀ (rules : List Rule) (acc : List Recommendation),
      acc.length ≤ (tier2 p maxR rules acc).length := by
  intro rules
  induction rules with
  | nil => intro acc; rw [tier2]
  | cons r rs ih =>
    intro acc
    rw [tier2]
    by_cases hlen : maxR ≤ (tier2Inner p maxR r r.consequents acc).length
    · rw [if_pos hlen]
      exact tier2Inner_length_le p maxR r _ acc
    · rw [if_neg hlen]
      calc acc.length ≤ (tier2Inner p maxR r r.consequents acc).length :=
            tier2Inner_length_le p maxR r _ acc
        _ ≤ _ := ih _

theorem one_le_tier2Inner_length (p : String) (maxR : Nat) (r : Rule) :
    ∀ (cs : List String) (acc : List Recommendation),
      (∃ c ∈ cs, c ≠ p) → 1 ≤ (tier2Inner p maxR r cs acc).length := by
  intro cs
  induction cs with
  | nil =>
    rintro acc ⟨c, hc, _⟩
    cases hc
  | cons c cs ih =>
    rintro acc ⟨c0, hc0, hc0p⟩
    rw [tier2Inner]
    by_cases hc : c ≠ p
    · rw [if_pos hc]
      by_cases hlen : maxR ≤ (acc ++ [mkRec2 r c]).length
      · rw [if_pos hlen]
        simp
      · rw [if_neg hlen]
        calc 1 ≤ (acc ++ [mkRec2 r c]).length := by simp
          _ ≤ _ := tier2Inner_length_le p maxR r _ _
    · rw [if_neg hc]
      push_neg at hc
      refine ih acc ⟨c0, ?_, hc0p⟩
      rcases List.mem_cons.mp hc0 with rfl | h
      · exact absurd hc hc0p
      · exact h

theorem one_le_tier2_length (p : String) (maxR : Nat) (r : Rule) (rs : List Rule)
    (h : ∃ c ∈ r.consequents, c ≠ p) :
    1 ≤ (tier2 p maxR (r :: rs) []).length := by
  rw [tier2]
  by_cases hlen : maxR ≤ (tier2Inner p maxR r r.consequents []).length
  · rw [if_pos hlen]
    exact one_le_tier2Inner_length p maxR r _ [] h
  · rw [if_neg hlen]
    calc 1 ≤ (tier2Inner p maxR r r.consequents []).length :=
          one_le_tier2Inner_length p maxR r _ [] h
      _ ≤ _ := tier2_length_le p maxR rs _

theorem tier1_eq_nil (p : String) (rules : List Rule)
    (h : ∀ r ∈ rules, p ∉ r.antecedents) : tier1 p rules = [] := by
  induction rules with
  | nil => rfl
  | cons r rs ih =>
    unfold tier1
    rw [List.flatMap_cons]
    rw [if_neg (fun hc => (h r (List.mem_cons_self _ _)) hc.1)]
    rw [List.nil_append]
    exact ih (fun r2 hr2 => h r2 (List.mem_cons_of_mem _ hr2))

/-- Click count of one product over an event list. -/
def pClicks (p : String) (events : List ClickEvent) : Nat :=
  (events.filter (fun e => decide (e.product_name = p))).length

/-- All recorded prices of one product over an event list, in order,
zero prices included. -/
def pPrices (p : String) (events : List ClickEvent) : List ℚ :=
  (events.filter (fun e => decide (e.product_name = p))).map (·.price)

/-- Effect of one statistics update on the entry of the updated product. -/
def bumpStats (e : ClickEvent) : Option PStats → PStats
  | none => { clicks := 1, categories := [e.category], prices := [e.price] }
  | some s =>
    { clicks := s.clicks + 1,
      categories := if e.category ∈ s.categories then s.categories
                    else s.categories ++ [e.category],
      prices := s.prices ++ [e.price] }

theorem alookup_statsUpd_self (m : List (String × PStats)) (e : ClickEvent) :
    alookup (statsUpd m e) e.product_name = some (bumpStats e (alookup m e.product_name)) := by
  induction m with
  | nil => simp [statsUpd, alookup, bumpStats]
  | cons kv rest ih =>
    obtain ⟨p, s⟩ := kv
    rw [statsUpd]
    by_cases hp : p = e.product_name
    · rw [if_pos hp, alookup, if_pos hp, alookup, if_pos hp, bumpStats]
    · rw [if_neg hp, alookup, if_neg hp, alookup, if_neg hp]
      exact ih


theorem alookup_statsUpd_ne (m : List (String × PStats)) (e : ClickEvent)
    (p : String) (h : p ≠ e.product_name) :
    alookup (statsUpd m e) p = alookup m p := by
  induction m with
  | nil => simp [statsUpd, alookup, Ne.symm h]
  | cons kv rest ih =>
    obtain ⟨k, s⟩ := kv
    rw [statsUpd]
    by_cases hk : k = e.product_name
    · rw [if_pos hk, alookup, alookup]
      have hkp : ¬ k = p := fun hh => h (hh ▸ hk)
      rw [if_neg hkp, if_neg hkp]
    · rw [if_neg hk, alookup, alookup]
      by_cases hkp : k = p
      · rw [if_pos hkp, if_pos hkp]
      · rw [if_neg hkp, if_neg hkp]
        exact ih

theorem pClicks_cons_eq (e : ClickEvent) (es : List ClickEvent) (p : String)
    (h : e.product_name = p) : pClicks p (e :: es) = pClicks p es + 1 := by
  simp [pClicks, List.filter_cons, h]

theorem pClicks_cons_ne (e : ClickEvent) (es : List ClickEvent) (p : String)
    (h : ¬ e.product_name = p) : pClicks p (e :: es) = pClicks p es := by
  simp [pClicks, List.filter_cons, h]

theorem pPrices_cons_eq (e : ClickEvent) (es : List ClickEvent) (p : String)
    (h : e.product_name = p) : pPrices p (e :: es) = e.price :: pPrices p es := by
  simp [pPrices, List.filter_cons, h]

theorem pPrices_cons_ne (e : ClickEvent) (es : List ClickEvent) (p : String)
    (h : ¬ e.product_name = p) : pPrices p (e :: es) = pPrices p es := by
  simp [pPrices, List.filter_cons, h]

theorem buildStats_clicks_prices :
    ∀ (events : List ClickEvent) (acc : List (String × PStats)) (p : String),
      (alookup (events.foldl statsUpd acc) p).map (fun s => (s.clicks, s.prices)) =
        (match alookup acc p with
         | some s => some (s.clicks + pClicks p events, s.prices ++ pPrices p events)
         | none => if pClicks p events = 0 then none
                   else some (pClicks p events, pPrices p events)) := by
  intro events
  induction events with
  | nil =>
    intro acc p
    rw [List.foldl_nil]
    cases h : alookup acc p with
    | none => simp [pClicks, pPrices]
    | some s => simp [pClicks, pPrices]
  | cons e es ih =>
    intro acc p
    rw [List.foldl_cons]
    by_cases hp : p = e.product_name
    · subst hp
      rw [ih (statsUpd acc e) e.product_name, alookup_statsUpd_self]
      rw [pClicks_cons_eq e es e.product_name rfl, pPrices_cons_eq e es e.product_name rfl]
      cases h : alookup acc e.product_name with
      | none =>
        rw [bumpStats]
        simp [Nat.add_comm]
      | some s =>
        rw [bumpStats]
        simp [Nat.add_comm, Nat.add_assoc, Nat.add_left_comm, List.append_assoc]
    · rw [ih (statsUpd acc e) p, alookup_statsUpd_ne acc e p hp]
      rw [pClicks_cons_ne e es p (fun hh => hp hh.symm),
          pPrices_cons_ne e es p (fun hh => hp hh.symm)]

theorem keys_statsUpd (m : List (String × PStats)) (e : ClickEvent) :
    (statsUpd m e).map Prod.fst =
      if e.product_name ∈ m.map Prod.fst then m.map Prod.fst
      else m.map Prod.fst ++ [e.product_name] := by
  induction m with
  | nil => simp [statsUpd]
  | cons kv rest ih =>
    obtain ⟨k, s⟩ := kv
    rw [statsUpd]
    by_cases hk : k = e.product_name
    · rw [if_pos hk]
      have : e.product_name ∈ ((k, s) :: rest).map Prod.fst := by
        simp [hk.symm]
      rw [if_pos this]
      simp
    · rw [if_neg hk]
      by_cases hmem : e.product_name ∈ rest.map Prod.fst
      · have : e.product_name ∈ ((k, s) :: rest).map Prod.fst := by
          simp [hmem]
        rw [if_pos this]
        simp only [List.map_cons]
        rw [ih, if_pos hmem]
      · have : ¬ e.product_name ∈ ((k, s) :: rest).map Prod.fst := by
          simp only [List.map_cons, List.mem_cons]
          push_neg
          exact ⟨fun hh => hk hh.symm, hmem⟩
        rw [if_neg this]
        simp only [List.map_cons]
        rw [ih, if_neg hmem]
        simp

theorem nodup_keys_statsUpd (m : List (String × PStats)) (e : ClickEvent)
    (h : (m.map Prod.fst).Nodup) : ((statsUpd m e).map Prod.fst).Nodup := by
  rw [keys_statsUpd]
  by_cases hmem : e.product_name ∈ m.map Prod.fst
  · rw [if_pos hmem]; exact h
  · rw [if_neg hmem]
    rw [List.nodup_append]
    exact ⟨h, List.nodup_singleton _, by
      intro a ha hb
      rw [List.mem_singleton] at hb
      exact hmem (hb ▸ ha)⟩

theorem nodup_keys_buildStats (events : List ClickEvent) :
    ((buildStats events).map Prod.fst).Nodup := by
  have main : ∀ (evs : List ClickEvent) (acc : List (String × PStats)),
      (acc.map Prod.fst).Nodup → ((evs.foldl statsUpd acc).map Prod.fst).Nodup := by
    intro evs
    induction evs with
    | nil => intro acc h; exact h
    | cons e es ih =>
      intro acc h
      rw [List.foldl_cons]
      exact ih _ (nodup_keys_statsUpd acc e h)
  exact main events [] (by simp)

theorem alookup_eq_of_mem {β : Type} (m : List (String × β)) (k : String) (v : β)
    (h : (k, v) ∈ m) (hn : (m.map Prod.fst).Nodup) : alookup m k = some v := by
  induction m with
  | nil => cases h
  | cons kv rest ih =>
    obtain ⟨k2, v2⟩ := kv
    rw [alookup]
    rcases List.mem_cons.mp h with heq | hmem
    · obtain ⟨rfl, rfl⟩ := Prod.mk.injEq .. ▸ heq
      rw [if_pos rfl]
    · by_cases hk : k2 = k
      · subst hk
        exfalso
        have : k2 ∈ rest.map Prod.fst :=
          List.mem_map.mpr ⟨(k2, v), hmem, rfl⟩
        rw [List.map_cons, List.nodup_cons] at hn
        exact hn.1 this
      · rw [if_neg hk]
        rw [List.map_cons, List.nodup_cons] at hn
        exact ih hmem hn.2

theorem listMin_pos (l : List ℚ) (hne : l ≠ []) (h : ∀ x ∈ l, 0 < x) :
    0 < listMin l := by
  cases l with
  | nil => exact absurd rfl hne
  | cons a as =>
    rw [listMin]
    have main : ∀ (bs : List ℚ) (b : ℚ), 0 < b → (∀ x ∈ bs, 0 < x) →
        0 < bs.foldl min b := by
      intro bs
      induction bs with
      | nil => intro b hb _; exact hb
      | cons c cs ih =>
        intro b hb hcs
        rw [List.foldl_cons]
        exact ih _ (lt_min hb (hcs c (List.mem_cons_self _ _)))
          (fun x hx => hcs x (List.mem_cons_of_mem _ hx))
    exact main as a (h a (List.mem_cons_self _ _))
      (fun x hx => h x (List.mem_cons_of_mem _ hx))

/-! ## Concrete inputs used by the scenario claims and the witnesses -/

/-- A timestamp on 2025-01-01 00:00 at the given second. -/
def atSecond (s : Int) : List Int := [2025, 1, 1, 0, 0, s]

/-- The spec scenario: three clicks on products A and B inside one
5-second bucket (seconds 1, 2, 3) and one click on C in a different
bucket (second 7). -/
def scenarioEvents : List ClickEvent :=
  [ { product_name := "A", category := "c", price := 10, timestamp := atSecond 1 },
    { product_name := "B", category := "c", price := 20, timestamp := atSecond 2 },
    { product_name := "A", category := "c", price := 10, timestamp := atSecond 3 },
    { product_name := "C", category := "d", price := 30, timestamp := atSecond 7 } ]

/-- A single rule B → C in which the product Z never appears. -/
def ruleBC : Rule :=
  { antecedents := ["B"], consequents := ["C"], support := mkRat 1 2,
    confidence := mkRat 1 2, lift := 1 }

/-- Two rules with the same consequent Y and the queried product X in both
antecedents. -/
def rulesXY : List Rule :=
  [ { antecedents := ["X"], consequents := ["Y"], support := mkRat 1 2,
      confidence := 1, lift := 2 },
    { antecedents := ["X", "W"], consequents := ["Y"], support := mkRat 1 2,
      confidence := 1, lift := 2 } ]

/-- Two events of the same product, one with price zero: the zero price
enters the per-product price statistics. -/
def zeroPriceEvents : List ClickEvent :=
  [ { product_name := "A", category := "c", price := 0, timestamp := atSecond 1 },
    { product_name := "A", category := "c", price := 10, timestamp := atSecond 2 } ]

/-! ## Claims -/

/-- C2: for every rule set output by the miner, any rule A before a rule B
has strictly greater confidence, or equal confidence and at least the
lift of B (the pairwise content of the stable sort by confidence
descending, lift descending at line 290). -/
theorem C2_rule_ordering (events : List ClickEvent) (ms mc : ℚ) (tw : Int) :
    List.Pairwise
      (fun A B => B.confidence < A.confidence ∨
        (A.confidence = B.confidence ∧ B.lift ≤ A.lift))
      (generate_association_rules events ms mc tw).rules := by
  unfold generate_association_rules
  split_ifs
  · simp [noTransactionsResult]
  · simp [valueErrorResult]
  · simp [noFrequentResult]
  · exact minedResult_rules_sorted _ _ _ _

/-- C3: no recommendation returned for a queried product is the product
itself, for every rule set and every max_results, both through the
recommendation core of lines 342-386 and through recommend_products. -/
theorem C3_self_exclusion (product_name : String) (rules : List Rule)
    (max_results : Nat) (events : List ClickEvent) (mc : ℚ) (tw : Int) :
    (∀ rec ∈ recommendFromRules product_name rules max_results,
      rec.product ≠ product_name)
    ∧ (∀ rec ∈ (recommend_products events product_name mc max_results tw).recommendations,
        rec.product ≠ product_name) := by
  constructor
  · intro rec h
    exact recommendFromRules_not_self product_name rules max_results rec h
  · intro rec h
    simp only [recommend_products] at h
    split at h
    · simp at h
    · split at h
      · simp at h
      · exact recommendFromRules_not_self product_name _ max_results rec h

/-- C3 witness: at the concrete two-rule set rulesXY, queried product X,
the theorem applies to the first returned recommendation. -/
theorem C3_self_exclusion_witness :
    ∃ rec ∈ recommendFromRules "X" rulesXY 5, rec.product ≠ "X" :=
  ⟨mkRec1 "X" (Rule.mk ["X"] ["Y"] (mkRat 1 2) 1 2) "Y", by decide,
    (C3_self_exclusion "X" rulesXY 5 [] (mkRat 3 10) 5).1 _ (by decide)⟩

/-- C4: the scenario events produce exactly the two transactions
containing A,B and C; with the default thresholds (adjusted because only
2 transactions exist) the single-item sets and the pair are frequent, and
the rule A → B with confidence 1 and support 0.5 is mined. -/
theorem C4_scenario :
    (prepare_transaction_data scenarioEvents 5).1.rows = [["A", "B"], ["C"]]
    ∧ { support := mkRat 1 2, itemsets := ["A"] } ∈
        (generate_association_rules scenarioEvents (mkRat 1 10) (mkRat 3 10) 5).frequent_itemsets
    ∧ { support := mkRat 1 2, itemsets := ["B"] } ∈
        (generate_association_rules scenarioEvents (mkRat 1 10) (mkRat 3 10) 5).frequent_itemsets
    ∧ { support := mkRat 1 2, itemsets := ["C"] } ∈
        (generate_association_rules scenarioEvents (mkRat 1 10) (mkRat 3 10) 5).frequent_itemsets
    ∧ { support := mkRat 1 2, itemsets := ["A", "B"] } ∈
        (generate_association_rules scenarioEvents (mkRat 1 10) (mkRat 3 10) 5).frequent_itemsets
    ∧ { antecedents := ["A"], consequents := ["B"], support := mkRat 1 2,
        confidence := 1, lift := 2 } ∈
        (generate_association_rules scenarioEvents (mkRat 1 10) (mkRat 3 10) 5).rules := by
  decide

/-- C10: with the two rules of rulesXY and queried product X, tier 1 emits
one recommendation per matching rule and consequent with no
deduplication, so the final truncated list contains the product Y
twice. -/
theorem C10_duplicate_recommendations :
    (recommendFromRules "X" rulesXY 5).map (fun rec => rec.product) = ["Y", "Y"] := by
  decide

/-- C1: on a mining run that succeeds, the thresholds reported in the
summary and enforced on every frequent itemset and rule equal
max(0.05, min_support * 0.5) and max(0.1, min_confidence * 0.5) when the
transaction count is below 5, and the unchanged thresholds otherwise. -/
theorem C1_adaptive_thresholds (events : List ClickEvent) (ms mc : ℚ) (tw : Int)
    (h : (generate_association_rules events ms mc tw).error = none) :
    (("min_support",
        SVal.rat (if (prepare_transaction_data events tw).1.rows.length < 5
          then qMax (mkRat 1 20) (qMul ms (mkRat 1 2)) else ms)) ∈
      (generate_association_rules events ms mc tw).summary)
    ∧ (("min_confidence",
        SVal.rat (if (prepare_transaction_data events tw).1.rows.length < 5
          then qMax (mkRat 1 10) (qMul mc (mkRat 1 2)) else mc)) ∈
      (generate_association_rules events ms mc tw).summary)
    ∧ (∀ fi ∈ (generate_association_rules events ms mc tw).frequent_itemsets,
        (if (prepare_transaction_data events tw).1.rows.length < 5
          then qMax (mkRat 1 20) (qMul ms (mkRat 1 2)) else ms) ≤ fi.support)
    ∧ (∀ r ∈ (generate_association_rules events ms mc tw).rules,
        (if (prepare_transaction_data events tw).1.rows.length < 5
          then qMax (mkRat 1 10) (qMul mc (mkRat 1 2)) else mc) ≤ r.confidence) := by
  rw [generate_error_none_eq events ms mc tw h]
  refine ⟨?_, ?_, ?_, ?_⟩
  · simp [minedResult, adjustedSupport]
  · simp [minedResult, adjustedConfidence]
  · intro fi hfi
    simp only [minedResult] at hfi
    have := apriori_support_ge _ _ _ hfi
    rw [adjustedSupport] at this
    exact this
  · intro r hr
    simp only [minedResult] at hr
    rw [List.mem_insertionSort] at hr
    have := association_rules_conf_ge _ _ _ _ hr
    rw [adjustedConfidence] at this
    exact this

/-- C1 witness: the scenario events mine successfully with 2 transactions,
so the adjusted thresholds are reported and enforced. -/
theorem C1_adaptive_thresholds_witness :
    ("min_support",
      SVal.rat (if (prepare_transaction_data scenarioEvents 5).1.rows.length < 5
        then qMax (mkRat 1 20) (qMul (mkRat 1 10) (mkRat 1 2)) else mkRat 1 10)) ∈
      (generate_association_rules scenarioEvents (mkRat 1 10) (mkRat 3 10) 5).summary :=
  (C1_adaptive_thresholds scenarioEvents (mkRat 1 10) (mkRat 3 10) 5 (by decide)).1

/-- C5 counterexample: with an empty event set the miner returns a result
whose summary dict is empty, so the summary does not report the
transaction count, the thresholds, or any of the required items. -/
theorem C5_summary_counterexample :
    (generate_association_rules ([] : List ClickEvent) (mkRat 1 10) (mkRat 3 10) 5).summary = []
    ∧ alookup (generate_association_rules ([] : List ClickEvent)
        (mkRat 1 10) (mkRat 3 10) 5).summary "total_transactions" = none := by
  decide

/-- C5 amended: only a successful mining run reports all six summary
items (transaction count, product count, itemset count, rule count, both
thresholds, top-5 products); the no-transaction-data failure reports an
empty summary and the no-frequent-itemsets failure reports only the
transaction and product counts. -/
theorem C5_summary_keys (events : List ClickEvent) (ms mc : ℚ) (tw : Int) :
    ((generate_association_rules events ms mc tw).error = none →
      (generate_association_rules events ms mc tw).summary.map Prod.fst =
        ["total_transactions", "total_products", "frequent_itemsets_count",
         "rules_count", "min_support", "min_confidence", "top_products"])
    ∧ ((generate_association_rules events ms mc tw).error =
        some "거래 데이터가 없습니다" →
      (generate_association_rules events ms mc tw).summary = [])
    ∧ ((generate_association_rules events ms mc tw).error =
        some "빈발 항목 집합이 없습니다" →
      (generate_association_rules events ms mc tw).summary.map Prod.fst =
        ["total_transactions", "total_products"]) := by
  refine ⟨?_, ?_, ?_⟩
  · intro h
    rw [generate_error_none_eq events ms mc tw h]
    simp [minedResult]
  · intro h
    unfold generate_association_rules at h ⊢
    split_ifs at h ⊢
    · rfl
    · exact absurd h (by decide)
    · have h2 : some "빈발 항목 집합이 없습니다" = some "거래 데이터가 없습니다" := h
      exact absurd h2 (by decide)
    · have h2 : (none : Option String) = some "거래 데이터가 없습니다" := h
      cases h2
  · intro h
    unfold generate_association_rules at h ⊢
    split_ifs at h ⊢
    · exact absurd h (by decide)
    · exact absurd h (by decide)
    · simp [noFrequentResult]
    · have h2 : (none : Option String) = some "빈발 항목 집합이 없습니다" := h
      cases h2

/-- C5 witness: the scenario events mine successfully and report all
seven summary keys; the same events with an impossibly high support
threshold hit the no-frequent-itemsets failure and report only the two
counts. -/
theorem C5_summary_keys_witness :
    (generate_association_rules scenarioEvents (mkRat 1 10) (mkRat 3 10) 5).summary.map
        Prod.fst =
      ["total_transactions", "total_products", "frequent_itemsets_count",
       "rules_count", "min_support", "min_confidence", "top_products"]
    ∧ (generate_association_rules scenarioEvents (mkRat 10 1) (mkRat 3 10) 5).summary.map
        Prod.fst = ["total_transactions", "total_products"] :=
  ⟨(C5_summary_keys scenarioEvents (mkRat 1 10) (mkRat 3 10) 5).1 (by decide),
   (C5_summary_keys scenarioEvents (mkRat 10 1) (mkRat 3 10) 5).2.2 (by decide)⟩

/-- C8: mining failures are carried in the error field of a total result,
never raised across the module boundary.  An empty event set yields the
no-transaction-data error (the Korean string of line 259, meaning "no
transaction data") with empty itemset and rule collections, makes the
groups endpoint answer with an error and zero counts, and makes
recommend_products answer with the same error and no recommendations;
when the matrix is nonempty, the threshold is positive and no itemset
reaches it, the result carries the no-frequent-itemsets error (line 280)
with empty collections. -/
theorem C8_nonfatal_failures (events : List ClickEvent) (ms mc : ℚ) (tw : Int)
    (p : String) (maxR : Nat)
    (h1 : (prepare_transaction_data events tw).1.rows ≠ [])
    (h2 : ¬ adjustedSupport (prepare_transaction_data events tw).1.rows.length ms ≤ 0)
    (h3 : apriori (prepare_transaction_data events tw).1
      (adjustedSupport (prepare_transaction_data events tw).1.rows.length ms) = []) :
    (generate_association_rules ([] : List ClickEvent) ms mc tw).error =
        some "거래 데이터가 없습니다"
    ∧ (generate_association_rules ([] : List ClickEvent) ms mc tw).frequent_itemsets = []
    ∧ (generate_association_rules ([] : List ClickEvent) ms mc tw).rules = []
    ∧ (generate_association_rules events ms mc tw).error =
        some "빈발 항목 집합이 없습니다"
    ∧ (generate_association_rules events ms mc tw).frequent_itemsets = []
    ∧ (generate_association_rules events ms mc tw).rules = []
    ∧ (get_groups_info ([] : List ClickEvent) tw).error = some "그룹 데이터가 없습니다"
    ∧ (get_groups_info ([] : List ClickEvent) tw).total_groups = 0
    ∧ (get_groups_info ([] : List ClickEvent) tw).groups = []
    ∧ (recommend_products ([] : List ClickEvent) p mc maxR tw).error =
        some "거래 데이터가 없습니다"
    ∧ (recommend_products ([] : List ClickEvent) p mc maxR tw).recommendations = [] := by
  have hprep : prepare_transaction_data ([] : List ClickEvent) tw = (⟨[], [], []⟩, []) := by
    unfold prepare_transaction_data
    rw [if_pos (Or.inl rfl)]
  have hgen : ∀ ms2 : ℚ, generate_association_rules ([] : List ClickEvent) ms2 mc tw =
      noTransactionsResult := by
    intro ms2
    unfold generate_association_rules
    rw [hprep]
    rfl
  have hgen2 : generate_association_rules events ms mc tw =
      noFrequentResult (prepare_transaction_data events tw).1 := by
    unfold generate_association_rules
    rw [if_neg h1, if_neg h2, if_pos h3]
  have hgroups : get_groups_info ([] : List ClickEvent) tw =
      { error := some "그룹 데이터가 없습니다", total_groups := 0, groups := [],
        total_transactions := 0, total_products := 0 } := by
    unfold get_groups_info
    rw [hprep]
    rfl
  have hrec : recommend_products ([] : List ClickEvent) p mc maxR tw =
      { error := some "거래 데이터가 없습니다", message := none, product_name := p,
        recommendations := [], total_recommendations := 0 } := by
    unfold recommend_products
    rw [hgen (mkRat 1 10)]
    rfl
  rw [hgen ms, hgen2, hgroups, hrec]
  refine ⟨rfl, rfl, rfl, rfl, rfl, rfl, rfl, rfl, rfl, rfl, rfl⟩

/-- C8 witness: the scenario events with min_support 10 give a nonempty
2-row matrix, a positive adjusted threshold of 5, and no frequent
itemsets, so every hypothesis is discharged concretely. -/
theorem C8_nonfatal_failures_witness :
    (generate_association_rules scenarioEvents (mkRat 10 1) (mkRat 3 10) 5).error =
        some "빈발 항목 집합이 없습니다"
    ∧ (get_groups_info ([] : List ClickEvent) 5).total_groups = 0
    ∧ (recommend_products ([] : List ClickEvent) "Z" (mkRat 3 10) 5 5).recommendations = [] := by
  have h := C8_nonfatal_failures scenarioEvents (mkRat 10 1) (mkRat 3 10) 5 "Z" 5
    (by decide) (by decide) (by decide)
  exact ⟨h.2.2.2.1, h.2.2.2.2.2.2.2.1, h.2.2.2.2.2.2.2.2.2.2⟩

/-- C9 counterexample: with the nonempty rule set containing only B → C,
in which the queried product Z never appears, max_recommendations = 0
produces an empty recommendation list even though rules exist (the final
truncation at line 386 cuts to zero), so the returned list is not
"never empty while rules exist". -/
theorem C9_fallback_counterexample :
    recommendFromRules "Z" [ruleBC] 0 = []
    ∧ ([ruleBC] : List Rule) ≠ []
    ∧ (∀ r ∈ [ruleBC], "Z" ∉ r.antecedents ∧ "Z" ∉ r.consequents) := by
  decide

/-- C9 amended: for a queried product that appears in no rule, a nonempty
rule set whose rules have nonempty consequent sets (as all mined rules
do), and max_recommendations at least 1, the tier-2 fallback returns
between 1 and max_recommendations recommendations, none of them the
queried product. -/
theorem C9_tier2_fallback (p : String) (rules : List Rule) (maxR : Nat)
    (habsent : ∀ r ∈ rules, p ∉ r.antecedents ∧ p ∉ r.consequents)
    (hne : rules ≠ [])
    (hcons : ∀ r ∈ rules, r.consequents ≠ [])
    (hmax : 1 ≤ maxR) :
    recommendFromRules p rules maxR ≠ []
    ∧ (recommendFromRules p rules maxR).length ≤ maxR
    ∧ (∀ rec ∈ recommendFromRules p rules maxR, rec.product ≠ p) := by
  obtain ⟨r, rs, rfl⟩ := List.exists_cons_of_ne_nil hne
  have htier1 : tier1 p (r :: rs) = [] :=
    tier1_eq_nil _ _ (fun r2 h2 => (habsent r2 h2).1)
  have hcond : (tier1 p (r :: rs)).length = 0 ∧ 0 < (r :: rs).length :=
    ⟨by rw [htier1]; rfl, by simp⟩
  have hcollect : collectedRecs p (r :: rs) maxR = tier2 p maxR (r :: rs) [] := by
    unfold collectedRecs
    rw [if_pos hcond]
  have hex : ∃ c ∈ r.consequents, c ≠ p := by
    obtain ⟨c, cs, hc⟩ :=
      List.exists_cons_of_ne_nil (hcons r (List.mem_cons_self _ _))
    refine ⟨c, by rw [hc]; exact List.mem_cons_self _ _, fun hcp => ?_⟩
    exact (habsent r (List.mem_cons_self _ _)).2
      (hcp ▸ (by rw [hc]; exact List.mem_cons_self _ _ : c ∈ r.consequents))
  have hlen1 : 1 ≤ (tier2 p maxR (r :: rs) []).length :=
    one_le_tier2_length p maxR r rs hex
  refine ⟨?_, ?_, ?_⟩
  · apply List.ne_nil_of_length_pos
    unfold recommendFromRules
    rw [hcollect, List.length_take, List.length_insertionSort]
    exact lt_min_iff.mpr ⟨hmax, hlen1⟩
  · unfold recommendFromRules
    rw [List.length_take]
    exact min_le_left _ _
  · intro rec hrec
    exact recommendFromRules_not_self p (r :: rs) maxR rec hrec

/-- C9 witness: queried product Z, the single rule B → C and
max_recommendations 5 give a nonempty list of at most 5 recommendations
excluding Z. -/
theorem C9_tier2_fallback_witness :
    recommendFromRules "Z" [ruleBC] 5 ≠ []
    ∧ (recommendFromRules "Z" [ruleBC] 5).length ≤ 5
    ∧ (∀ rec ∈ recommendFromRules "Z" [ruleBC] 5, rec.product ≠ "Z") :=
  C9_tier2_fallback "Z" [ruleBC] 5 (by decide) (by decide) (by decide) (by decide)

theorem pPrices_length (p : String) (events : List ClickEvent) :
    (pPrices p events).length = pClicks p events := by
  simp [pPrices, pClicks]

/-- C6 counterexample: a product with one zero-price click and one
10-priced click gets average_price 5 and minimum price 0, so zero-price
events are not excluded from the per-product price statistics (the claim
predicts average 10 and minimum 10). -/
theorem C6_analytics_counterexample :
    (get_product_analytics zeroPriceEvents).top_products.map
        (fun entry => (entry.product_name, entry.clicks, entry.average_price,
          entry.price_min, entry.price_max)) =
      [("A", 2, mkRat 5 1, 0, mkRat 10 1)] := by
  decide

/-- C6 amended: every per-product entry counts all events of the product
as clicks and takes its average, minimum and maximum over all recorded
prices of the product, zero prices included; only the global price
statistics exclude nonpositive prices (their count is the number of
positive-price events and their minimum is positive). -/
theorem C6_analytics_stats (events : List ClickEvent) :
    (∀ entry ∈ (get_product_analytics events).top_products,
      entry.clicks = pClicks entry.product_name events
      ∧ entry.clicks ≠ 0
      ∧ entry.average_price =
          pyRound (qDiv (qSum (pPrices entry.product_name events))
            (mkRat ((pPrices entry.product_name events).length : Int) 1)) 2
      ∧ entry.price_min = listMin (pPrices entry.product_name events)
      ∧ entry.price_max = listMax (pPrices entry.product_name events))
    ∧ (∀ ps, (get_product_analytics events).price_statistics = some ps →
        ps.count = (events.filter (fun e => decide (0 < e.price))).length
        ∧ 0 < ps.pmin) := by
  constructor
  · intro entry hentry
    unfold get_product_analytics at hentry
    split_ifs at hentry with hev
    · simp at hentry
    · unfold topProductEntries at hentry
      have h2 := List.mem_of_mem_take hentry
      rw [List.mem_insertionSort, List.mem_map] at h2
      obtain ⟨⟨p, s⟩, hps, rfl⟩ := h2
      have hlook : alookup (buildStats events) p = some s :=
        alookup_eq_of_mem _ p s hps (nodup_keys_buildStats events)
      have hchar := buildStats_clicks_prices events [] p
      unfold buildStats at hlook
      rw [hlook] at hchar
      rw [show alookup ([] : List (String × PStats)) p = none from rfl] at hchar
      by_cases hz : pClicks p events = 0
      · rw [if_pos hz] at hchar
        cases hchar
      · rw [if_neg hz] at hchar
        have hpair : (s.clicks, s.prices) = (pClicks p events, pPrices p events) :=
          Option.some.inj hchar
        have hclicks : s.clicks = pClicks p events := congrArg Prod.fst hpair
        have hprices : s.prices = pPrices p events := congrArg Prod.snd hpair
        have hpne : s.prices ≠ [] := by
          rw [hprices]
          intro hnil
          exact hz (by rw [← pPrices_length, hnil]; rfl)
        simp only [mkProductEntry, hpne, if_false, reduceIte]
        rw [hclicks, hprices]
        exact ⟨rfl, hz, rfl, rfl, rfl⟩
  · intro ps hps
    by_cases hev : events = []
    · subst hev
      simp [get_product_analytics] at hps
    · have hstat : (get_product_analytics events).price_statistics =
          priceStatistics events := by
        unfold get_product_analytics
        rw [if_neg hev]
      rw [hstat] at hps
      by_cases hall : allPrices events = ([] : List ℚ)
      · rw [priceStatistics, if_pos hall] at hps
        cases hps
      · rw [priceStatistics, if_neg hall] at hps
        have heq := Option.some.inj hps
        subst heq
        constructor
        · simp [allPrices]
        · apply listMin_pos _ hall
          intro x hx
          unfold allPrices at hx
          rw [List.mem_map] at hx
          obtain ⟨e, he, rfl⟩ := hx
          have hpos := List.of_mem_filter he
          exact of_decide_eq_true hpos

/-- C6 witness: the zero-price events instantiate the per-product and
global statements concretely. -/
theorem C6_analytics_stats_witness :
    ∃ entry ∈ (get_product_analytics zeroPriceEvents).top_products,
      entry.clicks = pClicks entry.product_name zeroPriceEvents
      ∧ entry.price_min = listMin (pPrices entry.product_name zeroPriceEvents)
      ∧ ∀ ps, (get_product_analytics zeroPriceEvents).price_statistics = some ps →
          0 < ps.pmin := by
  refine ⟨ProductEntry.mk "A" 2 ["c"] (mkRat 5 1) 0 (mkRat 10 1), by decide, ?_, ?_, ?_⟩
  · exact ((C6_analytics_stats zeroPriceEvents).1 _ (by decide)).1
  · exact ((C6_analytics_stats zeroPriceEvents).1 _ (by decide)).2.2.2.1
  · intro ps hps
    exact ((C6_analytics_stats zeroPriceEvents).2 ps hps).2

theorem matrix_cell (m : TransMatrix) (i j : Nat) :
    (m.data[i]?.bind (fun row => row[j]?)) =
      (m.rows[i]?.bind (fun r => m.cols[j]?.map (fun c => decide (c ∈ r)))) := by
  unfold TransMatrix.data
  rw [List.getElem?_map]
  cases h : m.rows[i]? with
  | none => simp
  | some r => simp [List.getElem?_map]

theorem builderRows_nodup (tw : Int) (events : List ClickEvent)
    (r : List String) (h : r ∈ builderRows tw events) : r.Nodup := by
  unfold builderRows at h
  rw [List.mem_map] at h
  obtain ⟨ig, hig, rfl⟩ := h
  unfold builderNonempty at hig
  rw [List.mem_filter] at hig
  obtain ⟨i, g⟩ := ig
  obtain ⟨hlt, hget⟩ := List.mem_enum hig.1
  unfold builderGroups at hget
  rw [List.getElem_map] at hget
  rw [hget]
  exact nodup_dedupFirst _

/-- C7: the matrix columns are exactly the union of the product names over
the retained rows, every row is deduplicated, every cell of the one-hot
data is the membership bit of its column product in its row group, and
the per-group metadata records each deduplicated product with the
category and price of its first occurrence in the group. -/
theorem C7_matrix_shape (events : List ClickEvent) (tw : Int) :
    (∀ p, p ∈ (prepare_transaction_data events tw).1.cols ↔
      ∃ r, r ∈ (prepare_transaction_data events tw).1.rows ∧ p ∈ r)
    ∧ (∀ r ∈ (prepare_transaction_data events tw).1.rows, r.Nodup)
    ∧ (∀ i j : Nat, ((prepare_transaction_data events tw).1.data[i]?.bind (fun row => row[j]?)) =
        ((prepare_transaction_data events tw).1.rows[i]?.bind (fun r : List String =>
          (prepare_transaction_data events tw).1.cols[j]?.map
            (fun c : String => decide (c ∈ r)))))
    ∧ (∀ gi ∈ (prepare_transaction_data events tw).2, ∃ ges,
        (gi.1, ges) ∈ groupEvents tw events ∧
        gi.2.products = (dedupFirst (ges.map (·.product_name))).map (fun p =>
          { product_name := p, category := firstCategory ges p,
            price := firstPrice ges p })) := by
  refine ⟨?_, ?_, fun i j => matrix_cell _ i j, ?_⟩
  · intro p
    unfold prepare_transaction_data
    split_ifs
    · simp
    · simp only
      rw [builderCols, mem_dedupFirst, List.mem_flatten]
  · intro r hr
    unfold prepare_transaction_data at hr
    split_ifs at hr
    · simp at hr
    · exact builderRows_nodup tw events r hr
  · intro gi hgi
    unfold prepare_transaction_data at hgi
    split_ifs at hgi
    · simp at hgi
    · simp only at hgi
      rw [List.mem_map] at hgi
      obtain ⟨g, hg, rfl⟩ := hgi
      refine ⟨g.2, ?_, rfl⟩
      simpa using hg

/-- C7 witness: the scenario matrix instantiates the column
characterization at product A and the row deduplication at the first
row. -/
theorem C7_matrix_shape_witness :
    ("A" ∈ (prepare_transaction_data scenarioEvents 5).1.cols ↔
      ∃ r, r ∈ (prepare_transaction_data scenarioEvents 5).1.rows ∧ "A" ∈ r)
    ∧ (["A", "B"] : List String).Nodup :=
  ⟨(C7_matrix_shape scenarioEvents 5).1 "A",
   (C7_matrix_shape scenarioEvents 5).2.1 ["A", "B"] (by decide)⟩
